import Mathlib

/-!
Shallow embedding of the PadelBot alert subsystem (src/bot.py): the TTL
caches, the notification ledger operations, the pagination traversal of
`fetch_all_tournaments`, and the reconciliation tick `check_alerts`.
Machine-level details that do not affect the modelled behaviour (HTTP
transport, logging, asyncpg connections) are abstracted into explicit
oracle functions (`fetchMatches`, `send`, page oracles); everything the
control flow depends on is translated statement by statement.

Time is modelled in minutes (an `Int`) for the caches and in civil-day
ordinals for `played_at` dates.
-/

namespace PadelBot

/-- A player as used by the alert path: only `p["name"]` is read. -/
structure Player where
  name : String
deriving DecidableEq, Repr

/-- `match["players"]` — the two teams, in dict insertion order
(`team_1` then `team_2`), as produced by the upstream JSON. -/
structure Teams where
  team_1 : List Player
  team_2 : List Player
deriving DecidableEq, Repr

/-- One element of `match["score"]`: per-set games of each team. -/
structure SetScore where
  team_1 : Int
  team_2 : Int
deriving DecidableEq, Repr

/-- A match as read by `check_alerts`: `m["id"]`, `m.get("status")`,
`m.get("played_at")`, `m.get("players", {})`, `m.get("score")`,
`m.get("duration", "")`, `m.get("round", 0)` (absent key modelled as
`none`), `m.get("winner")`. -/
structure MatchData where
  id : Int
  status : Option String
  played_at : Option String
  players : Teams
  score : List SetScore
  duration : String
  round : Option Int
  winner : Option String
deriving DecidableEq, Repr

/-- A tournament as read by the alert path: `t["id"]`, `t["name"]`,
`t["status"]`. -/
structure Tournament where
  id : Int
  name : String
  status : String
deriving DecidableEq, Repr

/-- A `favorites` row `(user_id, player_id, player_name)`. -/
abbrev Fav : Type := Int × Int × String

/-- A `notified` row `(user_id, match_id, status)` — the idempotency key. -/
abbrev Triple : Type := Int × Int × String

/-- The `notified` table, as the list of its rows. -/
abbrev Ledger : Type := List Triple

/-- `was_notified(user_id, match_id, status)`: `SELECT 1 FROM notified
WHERE user_id=$1 AND match_id=$2 AND status=$3` is non-empty. -/
def was_notified (L : Ledger) (tr : Triple) : Bool :=
  decide (tr ∈ L)

/-- `mark_notified(user_id, match_id, status)`: `INSERT ... ON CONFLICT DO
NOTHING` — appends the row unless the primary key is already present. -/
def mark_notified (L : Ledger) (tr : Triple) : Ledger :=
  if tr ∈ L then L else L ++ [tr]

/-- `remove_favorite(user_id, player_id)`: `DELETE FROM favorites WHERE
user_id=$1 AND player_id=$2`. -/
def remove_favorite (favs : List Fav) (uid pid : Int) : List Fav :=
  favs.filter (fun f => !(f.1 == uid && f.2.1 == pid))

/-- The `unfollow` branch of `button_handler` (bot.py:1035-1038), as its
effect on the `favorites` table: the handler builds the
`remove_favorite(...)` coroutine WITHOUT awaiting it, so the DELETE is
never executed and the table is left unchanged. -/
def button_handler_unfollow (favs : List Fav) (uid pid : Int) : List Fav :=
  let _ := remove_favorite favs uid pid
  favs

/-! ## Dates (`datetime.strptime(played_at, "%Y-%m-%d").date()`) -/

/-- Leap-year test of the Gregorian calendar. -/
def isLeap (y : Nat) : Bool :=
  (y % 4 == 0 && y % 100 != 0) || y % 400 == 0

/-- Length of month `m` of year `y`. -/
def daysInMonth (y m : Nat) : Nat :=
  if m == 2 then (if isLeap y then 29 else 28)
  else if m == 4 || m == 6 || m == 9 || m == 11 then 30
  else 31

/-- Days in the months of year `y` strictly before month `m`. -/
def monthOffset (y m : Nat) : Nat :=
  (List.range (m - 1)).foldl (fun a i => a + daysInMonth y (i + 1)) 0

/-- Day ordinal of the civil date `y-m-d` (days since 0001-01-00). -/
def dayOrdinal (y m d : Nat) : Nat :=
  365 * (y - 1) + (y - 1) / 4 - (y - 1) / 100 + (y - 1) / 400
    + monthOffset y m + d

/-- Decimal value of a digit character, if it is one. -/
def digitVal (c : Char) : Option Nat :=
  if c.isDigit then some (c.toNat - 48) else none

/-- `datetime.strptime(s, "%Y-%m-%d").date()` on the `YYYY-MM-DD` strings
the upstream API emits, as the day ordinal of the parsed date; `none`
models the `ValueError` on any other input. -/
def parseDate (s : String) : Option Int :=
  match s.data with
  | [y1, y2, y3, y4, '-', m1, m2, '-', d1, d2] =>
    match digitVal y1, digitVal y2, digitVal y3, digitVal y4,
          digitVal m1, digitVal m2, digitVal d1, digitVal d2 with
    | some a, some b, some c, some d, some e, some f, some g, some h =>
      let y := 1000 * a + 100 * b + 10 * c + d
      let mo := 10 * e + f
      let dy := 10 * g + h
      if 1 ≤ mo && mo ≤ 12 && 1 ≤ dy && dy ≤ daysInMonth y mo then
        some (dayOrdinal y mo dy)
      else none
    | _, _, _, _, _, _, _, _ => none
  | _ => none

/-! ## `format_match_score` and message formatting -/

/-- `format_match_score(match)`: `"T1-T2 | T1-T2 | ..."`, or the
placeholder when the score list is empty (`score or []` collapses a JSON
`null` and the empty list to the same case). -/
def format_match_score (m : MatchData) : String :=
  if m.score.isEmpty then "📊 Sin resultado"
  else String.intercalate " | "
    (m.score.map (fun s => toString s.team_1 ++ "-" ++ toString s.team_2))

/-- `round_map.get(m.get("round", 0), f"Ronda {...}")` with the fixed
bracket table; an absent round falls through the table (default key 0)
into `"Ronda ?"`. -/
def roundName (r : Option Int) : String :=
  match r with
  | some 1 => "Final"
  | some 2 => "Semifinal"
  | some 4 => "Cuartos"
  | some 8 => "Octavos"
  | some n => "Ronda " ++ toString n
  | none => "Ronda ?"

/-- `" / ".join(p["name"] for p in team)`. -/
def teamNames (team : List Player) : String :=
  String.intercalate " / " (team.map (fun p => p.name))

/-- `[p["name"] for team in players.values() for p in team]`. -/
def allPlayers (m : MatchData) : List String :=
  (m.players.team_1 ++ m.players.team_2).map (fun p => p.name)

/-- `played_at or 'Hoy'` (Python `or`: `None` and `""` are falsy). -/
def playedAtText (p : Option String) : String :=
  match p with
  | some s => if s == "" then "Hoy" else s
  | none => "Hoy"

/-- The notification text built in `check_alerts` for favorite name
`pname` in match `m` of tournament `t` with status `st`, winner trophy
markup included. -/
def alertMessage (t : Tournament) (m : MatchData) (st : String)
    (pname : String) : String :=
  let team1 := teamNames m.players.team_1
  let team2 := teamNames m.players.team_2
  let team1 := if m.winner == some "team_1" then "🏆 " ++ team1 else team1
  let team2 := if m.winner == some "team_2" then "🏆 " ++ team2 else team2
  let text_status :=
    if st == "live" then "está jugando ahora" else "terminó su partido"
  "🔔 " ++ pname ++ " " ++ text_status ++ " en " ++ t.name ++ " 🏆\n\n"
    ++ "👥 " ++ team1 ++ " vs " ++ team2 ++ "\n"
    ++ "📊 " ++ format_match_score m ++ "\n"
    ++ "📅 " ++ playedAtText m.played_at ++ "   ⏱️ " ++ m.duration ++ "\n"
    ++ "🔎 " ++ roundName m.round

/-! ## TTL caches -/

/-- The tournaments cache globals `TOURNAMENTS_CACHE` /
`TOURNAMENTS_CACHE_TIME` (time in minutes; `CACHE_DURATION = 60`). -/
structure TournCache where
  cache : Option (List Tournament)
  time : Option Int
deriving DecidableEq, Repr

/-- The refresh condition of `fetch_all_tournaments_cached`:
`TOURNAMENTS_CACHE is None or not TOURNAMENTS_CACHE_TIME or
(now - TOURNAMENTS_CACHE_TIME) > CACHE_DURATION`. -/
def tournNeedsRefresh (now : Int) (st : TournCache) : Bool :=
  st.cache.isNone || st.time.isNone ||
    (match st.time with
     | some t => decide (now - t > 60)
     | none => true)

/-- `fetch_all_tournaments_cached()` at time `now`, with `refresh` the
outcome of the `fetch_all_tournaments()` call attempted on expiry
(`none` models the call raising). Returns the value handed to the caller
and the new globals. -/
def fetch_all_tournaments_cached (now : Int)
    (refresh : Option (List Tournament)) (st : TournCache) :
    List Tournament × TournCache :=
  if tournNeedsRefresh now st then
    match refresh with
    | some ts => (ts, ⟨some ts, some now⟩)
    | none =>
      match st.cache with
      | some ts => (ts, st)
      | none => ([], st)
  else (st.cache.getD [], st)

/-- The per-tournament matches cache `LIVE_MATCHES_CACHE`: tournament id
↦ (matches, fetch time in minutes); `CACHE_DURATION_MATCHES = 2`. -/
abbrev MCache : Type := List (Int × (List MatchData × Int))

/-- Association-list lookup for `tournament_id in LIVE_MATCHES_CACHE`. -/
def mcacheFind (c : MCache) (tid : Int) : Option (List MatchData × Int) :=
  match c.find? (fun e => e.1 == tid) with
  | some e => some e.2
  | none => none

/-- `LIVE_MATCHES_CACHE[tournament_id] = (matches, now)`. -/
def mcacheStore (c : MCache) (tid : Int) (v : List MatchData × Int) :
    MCache :=
  (tid, v) :: c.filter (fun e => !(e.1 == tid))

/-- `fetch_live_matches_cached(tournament_id)` at time `now`, with
`fetch` the outcome of the HTTP request attempted on a miss or expiry
(`none` models it raising). Returns the value handed to the caller, the
new cache, and whether an upstream request was issued. -/
def fetch_live_matches_cached (now : Int) (tid : Int)
    (fetch : Option (List MatchData)) (c : MCache) :
    List MatchData × MCache × Bool :=
  match mcacheFind c tid with
  | some (data, tm) =>
    if now - tm < 2 then (data, c, false)
    else
      match fetch with
      | some ms => (ms, mcacheStore c tid (ms, now), true)
      | none => ([], c, true)
  | none =>
    match fetch with
    | some ms => (ms, mcacheStore c tid (ms, now), true)
    | none => ([], c, true)

/-! ## The reconciliation tick `check_alerts` -/

/-- One dispatched notification: recipient, idempotency key, text. -/
structure Notif where
  user : Int
  match_id : Int
  status : String
  text : String
deriving DecidableEq, Repr

/-- The idempotency key of a dispatched notification. -/
def ntriple (n : Notif) : Triple := (n.user, n.match_id, n.status)

/-- State threaded through one tick: the `notified` table, the
notifications dispatched so far, and the tournament ids for which an
upstream matches request was issued. -/
structure TickSt where
  ledger : Ledger
  sent : List Notif
  reqs : List Int
deriving DecidableEq, Repr

/-- The environment of one tick: the favorites read from the DB, the
tournament list obtained from `fetch_all_tournaments_cached() or []`,
the outcome of the per-tournament matches request (`none` models
`client.get`/`raise_for_status` raising), the outcome of
`context.bot.send_message` (`false` models it raising), and today's day
ordinal. -/
structure TickEnv where
  favorites : List Fav
  tournaments : List Tournament
  fetchMatches : Int → Option (List MatchData)
  send : Int → String → Bool
  today : Int

/-- The stale-result filter of `check_alerts`: a `finished` match with a
truthy `played_at` is dropped when the date parses to more than 1 day
ago — and also, via `except Exception: continue`, when it fails to
parse. -/
def skipStale (today : Int) (m : MatchData) : Bool :=
  if m.status == some "finished" then
    match m.played_at with
    | some s =>
      if s == "" then false
      else
        match parseDate s with
        | some d => decide (today - d > 1)
        | none => true
    | none => false
  else false

/-- The inner favorites loop of `check_alerts` for match `m` (status
`st`) of tournament `t`: name-match against `all_players`, skip when
`was_notified`, otherwise send and `mark_notified`. A raising send
(`env.send = false`) propagates to the tick's outer `except`, modelled
as `.error` carrying the state at that point. -/
def processFavs (env : TickEnv) (t : Tournament) (m : MatchData)
    (st : String) : List Fav → TickSt → Except TickSt TickSt
  | [], s => .ok s
  | (u, _pid, pname) :: fs, s =>
    if (allPlayers m).contains pname then
      if was_notified s.ledger (u, m.id, st) then
        processFavs env t m st fs s
      else
        let msg := alertMessage t m st pname
        if env.send u msg then
          processFavs env t m st fs
            { s with
              sent := s.sent ++ [⟨u, m.id, st, msg⟩],
              ledger := mark_notified s.ledger (u, m.id, st) }
        else .error s
    else processFavs env t m st fs s

/-- The per-match body of `check_alerts`: skip non-live/finished
statuses, apply stale-result suppression, then run the favorites loop. -/
def processMatch (env : TickEnv) (t : Tournament) (m : MatchData)
    (s : TickSt) : Except TickSt TickSt :=
  match m.status with
  | some st =>
    if st == "live" || st == "finished" then
      if skipStale env.today m then .ok s
      else processFavs env t m st env.favorites s
    else .ok s
  | none => .ok s

/-- The matches loop of `check_alerts` for one tournament. -/
def processMatches (env : TickEnv) (t : Tournament) :
    List MatchData → TickSt → Except TickSt TickSt
  | [], s => .ok s
  | m :: ms, s =>
    match processMatch env t m s with
    | .ok s1 => processMatches env t ms s1
    | .error s1 => .error s1

/-- The tournaments loop of `check_alerts`: for each live/finished
tournament issue one direct upstream request (`client.get(...)`,
recorded in `reqs`); a raising request propagates to the tick's single
outer `except`, aborting the rest of the tick. -/
def processTournaments (env : TickEnv) :
    List Tournament → TickSt → Except TickSt TickSt
  | [], s => .ok s
  | t :: ts, s =>
    let s1 : TickSt := { s with reqs := s.reqs ++ [t.id] }
    match env.fetchMatches t.id with
    | none => .error s1
    | some ms =>
      match processMatches env t ms s1 with
      | .ok s2 => processTournaments env ts s2
      | .error s2 => .error s2

/-- `[t for t in tournaments if t["status"] in ("live", "finished")]`. -/
def liveOrFinished (ts : List Tournament) : List Tournament :=
  ts.filter (fun t => t.status == "live" || t.status == "finished")

/-- One invocation of `check_alerts`: early return on empty favorites;
otherwise the nested loops under the single outer `try/except`, whose
`except` branch logs and returns with whatever state was reached. -/
def check_alerts (env : TickEnv) (L : Ledger) : TickSt :=
  if env.favorites.isEmpty then ⟨L, [], []⟩
  else
    match processTournaments env (liveOrFinished env.tournaments) ⟨L, [], []⟩ with
    | .ok s => s
    | .error s => s

/-- State accumulated across a sequence of ticks. -/
structure RunSt where
  ledger : Ledger
  sent : List Notif
  reqs : List Int
deriving DecidableEq, Repr

/-- The repeated invocation of `check_alerts` by the job queue
(`job_queue.run_repeating(check_alerts, interval=60, ...)`): each tick
runs on the ledger left by the previous one; dispatched notifications
and issued requests are accumulated for observation. -/
def run_ticks : List TickEnv → Ledger → RunSt
  | [], L => ⟨L, [], []⟩
  | e :: es, L =>
    let s := check_alerts e L
    let r := run_ticks es s.ledger
    ⟨r.ledger, s.sent ++ r.sent, s.reqs ++ r.reqs⟩

/-! ## `fetch_all_tournaments` pagination -/

/-- One page of `GET /tournaments`: `data.get("data", [])` and
`data.get("links", {}).get("next")`. -/
structure Page where
  data : List Tournament
  next : Option String
deriving Repr

/-- The `while url:` loop of `fetch_all_tournaments` over a page oracle
(`none` models the request or JSON decode raising, caught by the
in-loop `except` which breaks with the tournaments accumulated so far).
`fuel` bounds the unbounded loop; the loop itself never raises. -/
def fetch_all_tournaments_loop (getPage : String → Option Page) :
    Nat → String → List Tournament → List Tournament
  | 0, _, acc => acc
  | fuel + 1, url, acc =>
    match getPage url with
    | none => acc
    | some p =>
      let acc1 := acc ++ p.data
      match p.next with
      | none => acc1
      | some u => if u == "" then acc1 else
          fetch_all_tournaments_loop getPage fuel u acc1

/-- `PADEL_API_URL`. -/
def PADEL_API_URL : String := "https://en.fantasypadeltour.com/api"

/-- `fetch_all_tournaments()`: start the pagination loop at
`{PADEL_API_URL}/tournaments` with an empty accumulator. -/
def fetch_all_tournaments (getPage : String → Option Page) (fuel : Nat) :
    List Tournament :=
  fetch_all_tournaments_loop getPage fuel (PADEL_API_URL ++ "/tournaments") []

/-! ## Concrete fixtures -/

/-- Teams of the demonstration match: "Ana Ruiz" plays on `team_1`. -/
def demoTeams : Teams :=
  ⟨[⟨"Ana Ruiz"⟩, ⟨"Bea Gomez"⟩], [⟨"Caro Lopez"⟩, ⟨"Dana Marti"⟩]⟩

/-- A live match with id `mid` featuring "Ana Ruiz" on `team_1`. -/
def demoMatch (mid : Int) : MatchData :=
  { id := mid, status := some "live", played_at := none,
    players := demoTeams, score := [⟨6, 1⟩, ⟨6, 4⟩], duration := "1h10",
    round := some 4, winner := none }

/-- A live tournament with id 5. -/
def demoTournament : Tournament := ⟨5, "Open Madrid", "live"⟩

/-- A live tournament (id 3) whose matches request will fail. -/
def badTournament : Tournament := ⟨3, "Open Roma", "live"⟩

/-- A finished tournament with id 6. -/
def finTournament : Tournament := ⟨6, "Open Lyon", "finished"⟩

/-- A single favorite: user 42 follows player 7, "Ana Ruiz". -/
def anaFavs : List Fav := [(42, 7, "Ana Ruiz")]

/-- An upstream oracle serving the demonstration match for tournament 5
and raising for every other tournament. -/
def demoFetch : Int → Option (List MatchData) :=
  fun tid => if tid == 5 then some [demoMatch 99] else none

/-- Tick environment with one live tournament whose single live match
features the followed "Ana Ruiz"; sends always succeed. -/
def demoEnv : TickEnv :=
  ⟨anaFavs, [demoTournament], demoFetch, fun _ _ => true, 739000⟩

/-- Tick environment parameterised by the match id of the live match. -/
def c2Env (mid : Int) : TickEnv :=
  ⟨anaFavs, [demoTournament],
    fun tid => if tid == 5 then some [demoMatch mid] else none,
    fun _ _ => true, 739000⟩

/-- Tick environment where the first tournament's matches request raises
and the second tournament holds a notifiable match. -/
def c4Env : TickEnv :=
  ⟨anaFavs, [badTournament, demoTournament], demoFetch, fun _ _ => true, 739000⟩

/-- A finished match whose `played_at` does not parse as `YYYY-MM-DD`. -/
def c6MatchBad : MatchData :=
  { demoMatch 99 with status := some "finished", played_at := some "ayer mismo" }

/-- A finished match with no `played_at` at all. -/
def c6MatchMissing : MatchData :=
  { demoMatch 99 with status := some "finished", played_at := none }

/-- Tick environment serving the unparseable-date finished match. -/
def c6EnvBad : TickEnv :=
  ⟨anaFavs, [finTournament],
    fun tid => if tid == 6 then some [c6MatchBad] else none,
    fun _ _ => true, 739000⟩

/-- Tick environment serving the missing-date finished match. -/
def c6EnvMissing : TickEnv :=
  ⟨anaFavs, [finTournament],
    fun tid => if tid == 6 then some [c6MatchMissing] else none,
    fun _ _ => true, 739000⟩

/-- Tick environment whose upstream oracle always succeeds. -/
def c7Env : TickEnv :=
  ⟨anaFavs, [demoTournament], fun _ => some [demoMatch 99],
    fun _ _ => true, 739000⟩

/-! ## Verification -/

/-- State reached by a loop body, whether it returned normally or raised
into the tick's outer handler. -/
def stOf : Except TickSt TickSt → TickSt
  | .ok s => s
  | .error s => s

/-- State `s'` extends state `s` by a batch of newly dispatched
notifications: the ledger grew by exactly their idempotency keys, those
keys are pairwise distinct, and none of them was already in the ledger. -/
def TickExt (s s' : TickSt) : Prop :=
  ∃ new : List Notif,
    s'.sent = s.sent ++ new ∧
    s'.ledger = s.ledger ++ new.map ntriple ∧
    (new.map ntriple).Nodup ∧
    ∀ n ∈ new, ntriple n ∉ s.ledger

theorem tickExt_refl (s : TickSt) : TickExt s s :=
  ⟨[], by simp, by simp, by simp, by simp⟩

theorem tickExt_of_eq {s s' : TickSt} (h1 : s'.sent = s.sent)
    (h2 : s'.ledger = s.ledger) : TickExt s s' :=
  ⟨[], by simp [h1], by simp [h2], by simp, by simp⟩

theorem tickExt_trans {s s' s'' : TickSt} (h : TickExt s s')
    (h' : TickExt s' s'') : TickExt s s'' := by
  obtain ⟨a, ha1, ha2, ha3, ha4⟩ := h
  obtain ⟨b, hb1, hb2, hb3, hb4⟩ := h'
  refine ⟨a ++ b, by rw [hb1, ha1, List.append_assoc],
    by rw [hb2, ha2, List.append_assoc, List.map_append], ?_, ?_⟩
  · rw [List.map_append]
    refine List.Nodup.append ha3 hb3 ?_
    intro x hxa hxb
    obtain ⟨n, hn, rfl⟩ := List.mem_map.mp hxb
    have hnb := hb4 n hn
    rw [ha2] at hnb
    exact hnb (List.mem_append_right _ hxa)
  · intro n hn
    rcases List.mem_append.mp hn with hna | hnb
    · exact ha4 n hna
    · have h5 := hb4 n hnb
      rw [ha2] at h5
      exact fun hmem => h5 (List.mem_append_left _ hmem)

theorem processFavs_ext (env : TickEnv) (t : Tournament) (m : MatchData)
    (st : String) (fs : List Fav) : ∀ s : TickSt,
    TickExt s (stOf (processFavs env t m st fs s)) := by
  induction fs with
  | nil => intro s; exact tickExt_refl s
  | cons f fs ih =>
    intro s
    obtain ⟨u, pid, pname⟩ := f
    simp only [processFavs]
    split
    · split
      · exact ih s
      · rename_i hmem hnot
        split
        · refine tickExt_trans ?_ (ih _)
          refine ⟨[⟨u, m.id, st, alertMessage t m st pname⟩], by simp, ?_, by simp, ?_⟩
          · have hn : (u, m.id, st) ∉ s.ledger := by
              simpa [was_notified] using hnot
            simp [mark_notified, hn, ntriple]
          · intro n hn
            simp only [List.mem_singleton] at hn
            subst hn
            simpa [was_notified, ntriple] using hnot
        · exact tickExt_refl s
    · exact ih s

theorem processMatch_ext (env : TickEnv) (t : Tournament) (m : MatchData)
    (s : TickSt) : TickExt s (stOf (processMatch env t m s)) := by
  simp only [processMatch]
  split
  · split
    · split
      · exact tickExt_refl s
      · exact processFavs_ext env t m _ env.favorites s
    · exact tickExt_refl s
  · exact tickExt_refl s

theorem processMatches_ext (env : TickEnv) (t : Tournament)
    (ms : List MatchData) : ∀ s : TickSt,
    TickExt s (stOf (processMatches env t ms s)) := by
  induction ms with
  | nil => intro s; exact tickExt_refl s
  | cons m ms ih =>
    intro s
    simp only [processMatches]
    cases h : processMatch env t m s with
    | ok s1 =>
      have h1 := processMatch_ext env t m s
      rw [h] at h1
      exact tickExt_trans h1 (ih s1)
    | error s1 =>
      have h1 := processMatch_ext env t m s
      rw [h] at h1
      exact h1

theorem processTournaments_ext (env : TickEnv) (ts : List Tournament) :
    ∀ s : TickSt, TickExt s (stOf (processTournaments env ts s)) := by
  induction ts with
  | nil => intro s; exact tickExt_refl s
  | cons t ts ih =>
    intro s
    simp only [processTournaments]
    cases hf : env.fetchMatches t.id with
    | none => exact tickExt_of_eq rfl rfl
    | some ms =>
      dsimp only
      cases h : processMatches env t ms { s with reqs := s.reqs ++ [t.id] } with
      | ok s2 =>
        dsimp only
        have h1 := processMatches_ext env t ms { s with reqs := s.reqs ++ [t.id] }
        rw [h] at h1
        exact tickExt_trans (tickExt_trans (tickExt_of_eq rfl rfl) h1) (ih s2)
      | error s2 =>
        dsimp only
        have h1 := processMatches_ext env t ms { s with reqs := s.reqs ++ [t.id] }
        rw [h] at h1
        exact tickExt_trans (tickExt_of_eq rfl rfl) h1

theorem check_alerts_ext (env : TickEnv) (L : Ledger) :
    TickExt ⟨L, [], []⟩ (check_alerts env L) := by
  simp only [check_alerts]
  split
  · exact tickExt_refl _
  · cases h : processTournaments env (liveOrFinished env.tournaments) ⟨L, [], []⟩ with
    | ok s =>
      have h1 := processTournaments_ext env (liveOrFinished env.tournaments) ⟨L, [], []⟩
      rw [h] at h1
      exact h1
    | error s =>
      have h1 := processTournaments_ext env (liveOrFinished env.tournaments) ⟨L, [], []⟩
      rw [h] at h1
      exact h1

theorem check_alerts_ledger_eq (env : TickEnv) (L : Ledger) :
    (check_alerts env L).ledger = L ++ ((check_alerts env L).sent.map ntriple) := by
  obtain ⟨new, h1, h2, h3, h4⟩ := check_alerts_ext env L
  simp only [List.nil_append] at h1
  rw [h2, h1]

theorem check_alerts_sent_nodup (env : TickEnv) (L : Ledger) :
    ((check_alerts env L).sent.map ntriple).Nodup := by
  obtain ⟨new, h1, h2, h3, h4⟩ := check_alerts_ext env L
  simp only [List.nil_append] at h1
  rw [h1]
  exact h3

theorem check_alerts_sent_fresh (env : TickEnv) (L : Ledger) :
    ∀ n ∈ (check_alerts env L).sent, ntriple n ∉ L := by
  obtain ⟨new, h1, h2, h3, h4⟩ := check_alerts_ext env L
  simp only [List.nil_append] at h1
  rw [h1]
  exact h4

/-! ## Claim theorems -/

theorem count_le_one_of_nodup {α : Type _} [BEq α] [LawfulBEq α]
    {l : List α} (h : l.Nodup) (a : α) : List.count a l ≤ 1 := by
  induction l with
  | nil => simp
  | cons b l ih =>
    rw [List.count_cons]
    have h2 := List.nodup_cons.mp h
    by_cases he : a = b
    · subst he
      have h0 : List.count a l = 0 := List.count_eq_zero.mpr h2.1
      simp [h0]
    · have hb : (b == a) = false := beq_false_of_ne (Ne.symm he)
      simp only [hb, if_false, Nat.add_zero]
      exact ih h2.2

/-- C1: across any sequence of reconciliation ticks, a notification for a
given (user, match, status) triple is dispatched at most once — and never
at all when the ledger already holds the triple at the start of the run
(the ledger only grows, so a recorded entry stays present). -/
theorem c1_notify_at_most_once (envs : List TickEnv) (L : Ledger) (tr : Triple) :
    List.count tr ((run_ticks envs L).sent.map ntriple) ≤ (if tr ∈ L then 0 else 1) := by
  induction envs generalizing L with
  | nil => simp [run_ticks]
  | cons e es ih =>
    simp only [run_ticks, List.map_append, List.count_append]
    have hledger := check_alerts_ledger_eq e L
    have hnodup := check_alerts_sent_nodup e L
    have hfresh := check_alerts_sent_fresh e L
    by_cases hL : tr ∈ L
    · have h1 : List.count tr ((check_alerts e L).sent.map ntriple) = 0 := by
        rw [List.count_eq_zero]
        intro hmem
        obtain ⟨n, hn, rfl⟩ := List.mem_map.mp hmem
        exact hfresh n hn hL
      have htr : tr ∈ (check_alerts e L).ledger := by
        rw [hledger]; exact List.mem_append_left _ hL
      have h2 := ih (check_alerts e L).ledger
      rw [if_pos htr] at h2
      rw [if_pos hL, h1]
      omega
    · rw [if_neg hL]
      by_cases hm : tr ∈ (check_alerts e L).sent.map ntriple
      · have h1 : List.count tr ((check_alerts e L).sent.map ntriple) ≤ 1 :=
          count_le_one_of_nodup hnodup tr
        have htr : tr ∈ (check_alerts e L).ledger := by
          rw [hledger]; exact List.mem_append_right _ hm
        have h2 := ih (check_alerts e L).ledger
        rw [if_pos htr] at h2
        omega
      · have h1 : List.count tr ((check_alerts e L).sent.map ntriple) = 0 :=
          List.count_eq_zero.mpr hm
        have htr : tr ∉ (check_alerts e L).ledger := by
          rw [hledger]
          intro hc
          rcases List.mem_append.mp hc with h | h
          · exact hL h
          · exact hm h
        have h2 := ih (check_alerts e L).ledger
        rw [if_neg htr] at h2
        omega

/-- C2: with the single favorite (42, "Ana Ruiz") and one live tournament
whose only match (any id `mid`) is live with "Ana Ruiz" on `team_1`, a
tick on an empty ledger dispatches exactly one notification, to user 42,
and writes exactly the ledger row (42, mid, "live"). -/
theorem c2_single_notification (mid : Int) :
    (check_alerts (c2Env mid) []).sent
        = [⟨42, mid, "live", alertMessage demoTournament (demoMatch mid) "live" "Ana Ruiz"⟩] ∧
    (check_alerts (c2Env mid) []).ledger = [((42 : Int), mid, "live")] :=
  ⟨rfl, rfl⟩

/-- C3: a ledger row is written only after the corresponding send
succeeded — after a tick, the ledger is exactly the initial ledger plus
the idempotency keys of the notifications actually dispatched, so a send
that raised (and aborted the tick) left no row behind. -/
theorem c3_ledger_only_after_send (env : TickEnv) (L : Ledger) :
    (check_alerts env L).ledger = L ++ ((check_alerts env L).sent.map ntriple) :=
  check_alerts_ledger_eq env L

theorem mark_notified_count_eq_one {L : Ledger} {tr : Triple}
    (h : List.count tr L ≤ 1) : List.count tr (mark_notified L tr) = 1 := by
  unfold mark_notified
  split
  · rename_i hmem
    have h1 : 0 < List.count tr L := List.count_pos_iff.mpr hmem
    omega
  · rename_i hmem
    rw [List.count_append, List.count_eq_zero.mpr hmem]
    simp

theorem mark_notified_of_mem {L : Ledger} {tr : Triple} (h : tr ∈ L) :
    mark_notified L tr = L := by
  unfold mark_notified
  rw [if_pos h]

/-- C9: `mark_notified` once followed by any number of repeated calls
with the same triple leaves exactly one row for that triple, provided the
table respected its primary key beforehand (at most one row). -/
theorem c9_mark_notified_idempotent (L : Ledger) (tr : Triple) (n : Nat)
    (h : List.count tr L ≤ 1) :
    List.count tr
      (Nat.iterate (fun L' => mark_notified L' tr) n (mark_notified L tr)) = 1 := by
  induction n with
  | zero => exact mark_notified_count_eq_one h
  | succ n ih =>
    rw [Function.iterate_succ_apply']
    have hmem : tr ∈ Nat.iterate (fun L' => mark_notified L' tr) n (mark_notified L tr) := by
      have h1 : 0 < List.count tr
          (Nat.iterate (fun L' => mark_notified L' tr) n (mark_notified L tr)) := by
        rw [ih]; omega
      exact List.count_pos_iff.mp h1
    rw [mark_notified_of_mem hmem]
    exact ih

/-- C9 witness: starting from the empty table, one `mark_notified`
followed by three repeats leaves exactly one row for the triple. -/
theorem c9_witness :
    List.count ((1 : Int), (2 : Int), "live") ([] : Ledger) ≤ 1 ∧
    List.count ((1 : Int), (2 : Int), "live")
      (Nat.iterate (fun L' => mark_notified L' ((1 : Int), (2 : Int), "live")) 3
        (mark_notified [] ((1 : Int), (2 : Int), "live"))) = 1 :=
  ⟨by decide, c9_mark_notified_idempotent [] ((1 : Int), (2 : Int), "live") 3 (by decide)⟩

theorem fetch_loop_prefix_mono (g : String → Option Page) :
    ∀ (fuel : Nat) (url : String) (acc : List Tournament),
    acc <+: fetch_all_tournaments_loop g fuel url acc := by
  intro fuel
  induction fuel with
  | zero => intro url acc; exact List.prefix_refl _
  | succ fuel ih =>
    intro url acc
    simp only [fetch_all_tournaments_loop]
    cases g url with
    | none => exact List.prefix_refl _
    | some p =>
      dsimp only
      cases p.next with
      | none => exact List.prefix_append _ _
      | some u =>
        dsimp only
        split
        · exact List.prefix_append _ _
        · have h1 : acc <+: acc ++ p.data := List.prefix_append _ _
          exact h1.trans (ih u (acc ++ p.data))

/-- C10: `fetch_all_tournaments` never raises; if the very first page
request fails it returns the empty list, and whenever a page oracle `g`
fails partway through a pagination chain that a fault-free oracle `g'`
would continue, the result under `g` is a prefix of the full sequence
under `g'` (the pages accumulated before the failure). -/
theorem c10_pagination_stops_and_keeps_pages :
    (∀ (g : String → Option Page) (fuel : Nat),
      g (PADEL_API_URL ++ "/tournaments") = none →
      fetch_all_tournaments g (fuel + 1) = []) ∧
    (∀ (g g' : String → Option Page),
      (∀ u p, g u = some p → g' u = some p) →
      ∀ (fuel : Nat) (url : String) (acc : List Tournament),
      fetch_all_tournaments_loop g fuel url acc
        <+: fetch_all_tournaments_loop g' fuel url acc) := by
  constructor
  · intro g fuel h
    simp [fetch_all_tournaments, fetch_all_tournaments_loop, h]
  · intro g g' hag fuel
    induction fuel with
    | zero => intro url acc; exact List.prefix_refl _
    | succ fuel ih =>
      intro url acc
      cases hg : g url with
      | none =>
        have heq : fetch_all_tournaments_loop g (fuel + 1) url acc = acc := by
          simp [fetch_all_tournaments_loop, hg]
        rw [heq]
        exact fetch_loop_prefix_mono g' (fuel + 1) url acc
      | some p =>
        have hg' : g' url = some p := hag url p hg
        simp only [fetch_all_tournaments_loop, hg, hg']
        cases p.next with
        | none => exact List.prefix_refl _
        | some u =>
          dsimp only
          split
          · exact List.prefix_refl _
          · exact ih u (acc ++ p.data)

/-- C10 witness: with an oracle failing on every request, the traversal
of one page returns the empty list, and its result is a prefix of the
result under the same (vacuously fault-free-extending) oracle. -/
theorem c10_witness :
    ((fun _ : String => (none : Option Page)) (PADEL_API_URL ++ "/tournaments") = none) ∧
    fetch_all_tournaments (fun _ : String => none) 1 = [] ∧
    fetch_all_tournaments_loop (fun _ : String => none) 2 "u" []
      <+: fetch_all_tournaments_loop (fun _ : String => none) 2 "u" [] :=
  ⟨rfl, c10_pagination_stops_and_keeps_pages.1 (fun _ => none) 0 rfl,
    c10_pagination_stops_and_keeps_pages.2 (fun _ => none) (fun _ => none)
      (fun _ _ h => Option.noConfusion h) 2 "u" []⟩

/-- C4 counterexample: with two live tournaments where raising the first
matches request aborts the tick, the second tournament's notifiable
match produces no notification in that tick (its matches are never even
requested), although alone it would produce one: the claimed
per-tournament failure isolation does not exist. -/
theorem c4_counterexample :
    (check_alerts c4Env []).sent = [] ∧
    (check_alerts c4Env []).reqs = [3] ∧
    (check_alerts demoEnv []).sent.length = 1 := by
  refine ⟨rfl, rfl, rfl⟩

/-- C4 amended: a failure while fetching one tournament's matches aborts
the remainder of the tick — the failing request is recorded, the state
reached so far is thrown to the tick's single outer handler, and none of
the remaining tournaments is processed in that tick (they are reattempted
only on later ticks). -/
theorem c4_abort_on_fetch_failure (env : TickEnv) (t : Tournament)
    (ts : List Tournament) (s : TickSt) (h : env.fetchMatches t.id = none) :
    processTournaments env (t :: ts) s = .error { s with reqs := s.reqs ++ [t.id] } := by
  simp [processTournaments, h]

/-- C4 witness: the aborting behaviour at the concrete failing
environment. -/
theorem c4_witness :
    c4Env.fetchMatches badTournament.id = none ∧
    processTournaments c4Env [badTournament, demoTournament] ⟨[], [], []⟩
      = .error ⟨[], [], [3]⟩ :=
  ⟨rfl, c4_abort_on_fetch_failure c4Env badTournament [demoTournament] ⟨[], [], []⟩ rfl⟩

/-- C5 counterexample: the per-tournament matches cache does NOT return
the stale value when the entry expired and the refresh fails — it
returns the empty list although a stale entry for the key exists. -/
theorem c5_counterexample :
    (fetch_live_matches_cached 10 5 none [(5, ([demoMatch 99], 0))]).1 = [] ∧
    (fetch_live_matches_cached 10 5 none [(5, ([demoMatch 99], 0))]).1 ≠ [demoMatch 99] := by
  refine ⟨rfl, by decide⟩

/-- C5 amended: on a failed refresh, the tournaments cache returns the
stale value when one exists and the empty list otherwise; the
per-tournament matches cache returns the empty list whenever its refresh
fails — both for an expired entry (the stale value is NOT served) and
for a missing one. -/
theorem c5_stale_fallback_tournaments_only :
    (∀ (now tm : Int) (ts : List Tournament), now - tm > 60 →
      (fetch_all_tournaments_cached now none ⟨some ts, some tm⟩).1 = ts) ∧
    (∀ (now : Int) (st : TournCache), st.cache = none →
      (fetch_all_tournaments_cached now none st).1 = []) ∧
    (∀ (now tm tid : Int) (ms : List MatchData) (c : MCache),
      mcacheFind c tid = some (ms, tm) → ¬(now - tm < 2) →
      (fetch_live_matches_cached now tid none c).1 = []) ∧
    (∀ (now tid : Int) (c : MCache), mcacheFind c tid = none →
      (fetch_live_matches_cached now tid none c).1 = []) := by
  refine ⟨?_, ?_, ?_, ?_⟩
  · intro now tm ts h
    simp [fetch_all_tournaments_cached, tournNeedsRefresh, h]
  · intro now st h
    obtain ⟨c, tm⟩ := st
    simp only at h
    subst h
    simp [fetch_all_tournaments_cached, tournNeedsRefresh]
  · intro now tm tid ms c h1 h2
    simp [fetch_live_matches_cached, h1, h2]
  · intro now tid c h
    simp [fetch_live_matches_cached, h]

/-- C5 witness: concrete instances of the four refresh-failure cases. -/
theorem c5_witness :
    ((100 : Int) - 0 > 60 ∧
      (fetch_all_tournaments_cached 100 none ⟨some [demoTournament], some 0⟩).1
        = [demoTournament]) ∧
    (mcacheFind [(5, ([demoMatch 99], 0))] 5 = some ([demoMatch 99], 0) ∧
      ¬((10 : Int) - 0 < 2) ∧
      (fetch_live_matches_cached 10 5 none [(5, ([demoMatch 99], 0))]).1 = []) :=
  ⟨⟨by decide,
      c5_stale_fallback_tournaments_only.1 100 0 [demoTournament] (by decide)⟩,
    ⟨by decide, by decide,
      c5_stale_fallback_tournaments_only.2.2.1 10 0 5 [demoMatch 99]
        [(5, ([demoMatch 99], 0))] (by decide) (by decide)⟩⟩

/-- C6 counterexample: a finished match whose `played_at` does not parse
is suppressed — it never reaches player-name matching, so the followed
player's user gets no notification, while the identical match with
`played_at` missing does notify. -/
theorem c6_counterexample :
    skipStale 739000 c6MatchBad = true ∧
    (check_alerts c6EnvBad []).sent = [] ∧
    (check_alerts c6EnvMissing []).sent.length = 1 := by
  refine ⟨rfl, rfl, rfl⟩

/-- C6 amended: a live/finished match is skipped by stale-result
suppression exactly when its status is finished and `played_at` is
present and non-empty and either fails to parse or parses to a date more
than 1 day before today; a skipped match is a no-op of the per-match
body, so it never produces a notification regardless of favorites. -/
theorem c6_skip_characterisation :
    (∀ (today : Int) (m : MatchData),
      skipStale today m = true ↔
        m.status = some "finished" ∧
          ∃ s, m.played_at = some s ∧ s ≠ "" ∧
            (parseDate s = none ∨ ∃ d, parseDate s = some d ∧ today - d > 1)) ∧
    (∀ (env : TickEnv) (t : Tournament) (m : MatchData) (s : TickSt),
      skipStale env.today m = true → processMatch env t m s = .ok s) := by
  constructor
  · intro today m
    cases hst : m.status with
    | none => simp [skipStale, hst]
    | some st =>
      by_cases hfin : st = "finished"
      · subst hfin
        cases hp : m.played_at with
        | none => simp [skipStale, hst, hp]
        | some s0 =>
          by_cases hs0 : s0 = ""
          · subst hs0
            simp [skipStale, hst, hp]
          · cases hd : parseDate s0 with
            | none => simp [skipStale, hst, hp, hs0, hd]
            | some d => simp [skipStale, hst, hp, hs0, hd]
      · simp [skipStale, hst, hfin]
  · intro env t m s h
    cases hst : m.status with
    | none => simp [skipStale, hst] at h
    | some st =>
      have hfin : st = "finished" := by
        by_contra hne
        simp [skipStale, hst, hne] at h
      subst hfin
      simp [processMatch, hst, h]

/-- C6 witness: the per-match body is a no-op on the concrete suppressed
match. -/
theorem c6_witness :
    skipStale c6EnvBad.today c6MatchBad = true ∧
    processMatch c6EnvBad finTournament c6MatchBad ⟨[], [], []⟩ = .ok ⟨[], [], []⟩ :=
  ⟨rfl, c6_skip_characterisation.2 c6EnvBad finTournament c6MatchBad ⟨[], [], []⟩ rfl⟩

theorem mcacheFind_store (c : MCache) (tid : Int) (v : List MatchData × Int) :
    mcacheFind (mcacheStore c tid v) tid = some v := by
  simp [mcacheFind, mcacheStore, List.find?]

theorem processFavs_ok_reqs (env : TickEnv) (hs : ∀ u msg, env.send u msg = true)
    (t : Tournament) (m : MatchData) (st : String) :
    ∀ (fs : List Fav) (s : TickSt),
    ∃ s', processFavs env t m st fs s = .ok s' ∧ s'.reqs = s.reqs := by
  intro fs
  induction fs with
  | nil => intro s; exact ⟨s, rfl, rfl⟩
  | cons f fs ih =>
    intro s
    obtain ⟨u, pid, pname⟩ := f
    simp only [processFavs]
    split
    · split
      · exact ih s
      · rw [if_pos (hs u (alertMessage t m st pname))]
        exact ih _
    · exact ih s

theorem processMatch_ok_reqs (env : TickEnv) (hs : ∀ u msg, env.send u msg = true)
    (t : Tournament) (m : MatchData) (s : TickSt) :
    ∃ s', processMatch env t m s = .ok s' ∧ s'.reqs = s.reqs := by
  simp only [processMatch]
  split
  · split
    · split
      · exact ⟨s, rfl, rfl⟩
      · exact processFavs_ok_reqs env hs t m _ env.favorites s
    · exact ⟨s, rfl, rfl⟩
  · exact ⟨s, rfl, rfl⟩

theorem processMatches_ok_reqs (env : TickEnv) (hs : ∀ u msg, env.send u msg = true)
    (t : Tournament) : ∀ (ms : List MatchData) (s : TickSt),
    ∃ s', processMatches env t ms s = .ok s' ∧ s'.reqs = s.reqs := by
  intro ms
  induction ms with
  | nil => intro s; exact ⟨s, rfl, rfl⟩
  | cons m ms ih =>
    intro s
    simp only [processMatches]
    obtain ⟨s1, h1, h2⟩ := processMatch_ok_reqs env hs t m s
    rw [h1]
    dsimp only
    obtain ⟨s', h3, h4⟩ := ih s1
    exact ⟨s', h3, h4.trans h2⟩

theorem processTournaments_reqs (env : TickEnv)
    (hs : ∀ u msg, env.send u msg = true)
    (hm : ∀ tid, (env.fetchMatches tid).isSome = true) :
    ∀ (ts : List Tournament) (s : TickSt),
    ∃ s', processTournaments env ts s = .ok s' ∧
      s'.reqs = s.reqs ++ ts.map (fun t => t.id) := by
  intro ts
  induction ts with
  | nil => intro s; exact ⟨s, rfl, by simp⟩
  | cons t ts ih =>
    intro s
    simp only [processTournaments]
    obtain ⟨ms, hms⟩ := Option.isSome_iff_exists.mp (hm t.id)
    rw [hms]
    dsimp only
    obtain ⟨s2, h1, h2⟩ := processMatches_ok_reqs env hs t ms { s with reqs := s.reqs ++ [t.id] }
    rw [h1]
    dsimp only
    obtain ⟨s', h3, h4⟩ := ih s2
    refine ⟨s', h3, ?_⟩
    rw [h4, h2]
    simp

/-- C7 amended: the at-most-one-upstream-call-per-TTL-window property
holds for `fetch_live_matches_cached` (after a successful refresh or a
hit, a second call within 2 minutes issues no second request) — but the
reconciliation engine bypasses that cache: with a healthy upstream and
transport, every tick of `check_alerts` issues one direct matches
request per live/finished tournament, unconditionally. -/
theorem c7_engine_bypasses_matches_cache :
    (∀ (now1 now2 tid : Int) (ms : List MatchData)
        (f2 : Option (List MatchData)) (c : MCache),
      now2 - now1 < 2 →
      ¬((fetch_live_matches_cached now1 tid (some ms) c).2.2 = true ∧
        (fetch_live_matches_cached now2 tid f2
          (fetch_live_matches_cached now1 tid (some ms) c).2.1).2.2 = true)) ∧
    (∀ (env : TickEnv) (L : Ledger),
      env.favorites.isEmpty = false →
      (∀ tid, (env.fetchMatches tid).isSome = true) →
      (∀ u msg, env.send u msg = true) →
      (check_alerts env L).reqs = (liveOrFinished env.tournaments).map (fun t => t.id)) := by
  constructor
  · intro now1 now2 tid ms f2 c hlt
    rintro ⟨h1, h2⟩
    cases hf : mcacheFind c tid with
    | none =>
      simp [fetch_live_matches_cached, hf, mcacheFind_store, hlt] at h2
    | some v =>
      obtain ⟨data, tm⟩ := v
      by_cases hfr : now1 - tm < 2
      · simp [fetch_live_matches_cached, hf, hfr] at h1
      · simp [fetch_live_matches_cached, hf, hfr, mcacheFind_store, hlt] at h2
  · intro env L hfav hm hs
    obtain ⟨s', h1, h2⟩ :=
      processTournaments_reqs env hs hm (liveOrFinished env.tournaments) ⟨L, [], []⟩
    simp only [check_alerts, hfav, Bool.false_eq_true, if_false, h1]
    simpa using h2

/-- C7 counterexample: two consecutive ticks of the engine over the same
single live tournament issue two upstream matches requests for it, not
at most one — the engine does not go through the per-tournament cache. -/
theorem c7_counterexample :
    (run_ticks [c7Env, c7Env] []).reqs = [5, 5] ∧
    ¬(List.count (5 : Int) (run_ticks [c7Env, c7Env] []).reqs ≤ 1) := by
  refine ⟨rfl, by decide⟩

/-- C7 witness: the cache property and the engine's per-tick request at
concrete inputs. -/
theorem c7_witness :
    ((2 : Int) - 1 < 2 ∧
      ¬((fetch_live_matches_cached 1 5 (some [demoMatch 99]) []).2.2 = true ∧
        (fetch_live_matches_cached 2 5 none
          (fetch_live_matches_cached 1 5 (some [demoMatch 99]) []).2.1).2.2 = true)) ∧
    (check_alerts c7Env []).reqs = (liveOrFinished c7Env.tournaments).map (fun t => t.id) :=
  ⟨⟨by decide,
      c7_engine_bypasses_matches_cache.1 1 2 5 [demoMatch 99] none [] (by decide)⟩,
    c7_engine_bypasses_matches_cache.2 c7Env [] rfl (fun _ => rfl) (fun _ _ => rfl)⟩

/-- C8: the unfollow branch of `button_handler` never deletes the
favorite — it builds the `remove_favorite` coroutine without awaiting
it, so the row (42, 7) is still present after the handler, although an
awaited `remove_favorite` would have deleted it. -/
theorem c8_unfollow_never_deletes :
    button_handler_unfollow [((42 : Int), (7 : Int), "Ana Ruiz")] 42 7
      = [((42 : Int), (7 : Int), "Ana Ruiz")] ∧
    ((42 : Int), (7 : Int), "Ana Ruiz")
      ∈ button_handler_unfollow [((42 : Int), (7 : Int), "Ana Ruiz")] 42 7 ∧
    remove_favorite [((42 : Int), (7 : Int), "Ana Ruiz")] 42 7 = [] := by
  refine ⟨rfl, by decide, by decide⟩

end PadelBot
